import Mathlib

/-!
# EnableRightClick — verification of the specification against the source

Shallow embedding of the EnableRightClick browser extension:

* the background service worker (allow-list storage, dynamic permissions,
  content-script injection, badge updates, message handler, tab listeners);
* the injected content-script payload (injection marker, addEventListener
  override, inline-handler clearing, capture-phase listeners, stylesheet,
  mutation observer);
* the overlay-rescue engine described by the specification.

External browser services (storage, permissions, badge, tabs, the URL
parser) are modelled as explicit state or as function parameters.
-/

/-- A browser URL object, as far as the background script inspects it:
`new URL(url)` exposes `protocol` (with trailing colon) and `origin`. -/
structure URLObj where
  protocol : String
  origin : String
deriving DecidableEq

/-- A browser tab as seen by the background script: `tab.id` and `tab.url`
may each be absent. -/
structure Tab where
  id : Option Nat
  url : Option String
deriving DecidableEq

/-- The state the background script manipulates through browser services:
the persisted allow-list (`chrome.storage.local`, key `enabledOrigins`),
the set of granted origin match patterns (`chrome.permissions`), the
per-tab badge (ON = `true`), and the set of tabs the content script has
been injected into. -/
structure BGState where
  enabledOrigins : List String
  permissions : List String
  badge : Nat → Bool
  injected : List Nat

/-- `getEnabledOrigins()`: read the allow-list from storage. -/
def getEnabledOrigins (s : BGState) : List String :=
  s.enabledOrigins

/-- `saveEnabledOrigins(origins)`: write the allow-list to storage. -/
def saveEnabledOrigins (origins : List String) (s : BGState) : BGState :=
  { s with enabledOrigins := origins }

/-- `extractOrigin(url)`: parse the URL (the browser parser is the
`parseURL` parameter; `new URL` throwing is `none`); return the origin
for `http:`/`https:` URLs and `null` otherwise. -/
def extractOrigin (parseURL : String → Option URLObj) (url : String) :
    Option String :=
  match parseURL url with
  | some urlObj =>
      if urlObj.protocol = "http:" ∨ urlObj.protocol = "https:" then
        some urlObj.origin
      else
        none
  | none => none

/-- `injectContentScript(tabId)`: run `content.js` in the tab; at this
level of the model the tab joins the injected set. -/
def injectContentScript (tabId : Nat) (s : BGState) : BGState :=
  { s with injected := if tabId ∈ s.injected then s.injected else tabId :: s.injected }

/-- `updateBadge(tabId, isEnabled)`: set the badge text of the tab to
"ON" or to empty. -/
def updateBadge (tabId : Nat) (isEnabled : Bool) (s : BGState) : BGState :=
  { s with badge := fun t => if t = tabId then isEnabled else s.badge t }

/-- `chrome.permissions.request({origins: [pattern]})`: already-granted
patterns resolve to `true` with no prompt; otherwise the user's answer
(`userGrants`) decides, and on acceptance the pattern is granted. -/
def requestPermission (userGrants : Bool) (pattern : String) (s : BGState) :
    Bool × BGState :=
  if pattern ∈ s.permissions then
    (true, s)
  else if userGrants then
    (true, { s with permissions := pattern :: s.permissions })
  else
    (false, s)

/-- `chrome.permissions.remove({origins: [pattern]})`: drop the pattern;
removing an absent pattern is a no-op (the script swallows the error). -/
def removePermission (pattern : String) (s : BGState) : BGState :=
  { s with permissions := s.permissions.filter (fun p => p ≠ pattern) }

/-- `chrome.tabs.reload(tabId)`: a fresh page context, so the tab leaves
the injected set. -/
def reloadTab (tabId : Nat) (s : BGState) : BGState :=
  { s with injected := s.injected.filter (fun t => t ≠ tabId) }

/-- `enableOrigin(tabId, origin)`: request the permission for
`origin + "/*"`; on denial return `false` with no mutation; on grant
add the origin to the allow-list if absent, inject the content script,
set the badge ON and return `true`. -/
def enableOrigin (userGrants : Bool) (tabId : Nat) (origin : String)
    (s : BGState) : Bool × BGState :=
  let pattern := origin ++ "/*"
  match requestPermission userGrants pattern s with
  | (granted, s1) =>
    if granted then
      let origins := getEnabledOrigins s1
      let s2 := if origin ∈ origins then s1
                else saveEnabledOrigins (origins ++ [origin]) s1
      let s3 := injectContentScript tabId s2
      let s4 := updateBadge tabId true s3
      (true, s4)
    else
      (false, s1)

/-- `disableOrigin(tabId, origin)`: remove the origin from the
allow-list, revoke the permission pattern, set the badge OFF, reload the
tab. -/
def disableOrigin (tabId : Nat) (origin : String) (s : BGState) : BGState :=
  let s1 := saveEnabledOrigins
    ((getEnabledOrigins s).filter (fun o => o ≠ origin)) s
  let s2 := removePermission (origin ++ "/*") s1
  let s3 := updateBadge tabId false s2
  reloadTab tabId s3

/-- A `sendResponse` payload: each field is present (`some`) or absent.
The `origin` field itself carries `null` as `some none`. -/
structure Response where
  success : Option Bool := none
  enabled : Option Bool := none
  origin : Option (Option String) := none
  supported : Option Bool := none
  origins : Option (List String) := none
  error : Option String := none
deriving DecidableEq

/-- The `removeOrigin` message case: filter the origin out of the
allow-list and revoke its pattern (an absent `message.origin` filters
nothing, and the failing revoke of `"undefined/*"` is swallowed). -/
def removeOriginCase (morigin : Option String) (s : BGState) :
    Response × BGState :=
  let origins := getEnabledOrigins s
  let updated := match morigin with
    | some mo => origins.filter (fun o => o ≠ mo)
    | none => origins
  let s1 := saveEnabledOrigins updated s
  let s2 := match morigin with
    | some mo => removePermission (mo ++ "/*") s1
    | none => s1
  ({ success := some true, origins := some updated }, s2)

/-- The `removeAllOrigins` message case: revoke every listed origin's
pattern, then save the empty allow-list. -/
def removeAllOriginsCase (s : BGState) : Response × BGState :=
  let s1 := (getEnabledOrigins s).foldl
    (fun acc o => removePermission (o ++ "/*") acc) s
  let s2 := saveEnabledOrigins [] s1
  ({ success := some true }, s2)

/-- `handleMessage(message, sender, sendResponse)`: the background
message dispatcher. `currentTab` is `getCurrentTab()`; `parseURL` the
browser URL parser; `userGrants` the user's answer should a permission
prompt be shown; `morigin` is `message.origin`. Falsy-URL (`undefined`
or empty) and falsy-id (`undefined` or `0`) checks mirror the
JavaScript truthiness tests. -/
def handleMessage (parseURL : String → Option URLObj) (userGrants : Bool)
    (currentTab : Option Tab) (mtype : String) (morigin : Option String)
    (s : BGState) : Response × BGState :=
  if mtype = "getStatus" then
    match currentTab with
    | none => ({ enabled := some false, origin := some none, supported := some false }, s)
    | some tab =>
      match tab.url with
      | none => ({ enabled := some false, origin := some none, supported := some false }, s)
      | some url =>
        if url.isEmpty then
          ({ enabled := some false, origin := some none, supported := some false }, s)
        else
          match extractOrigin parseURL url with
          | none => ({ enabled := some false, origin := some none, supported := some false }, s)
          | some origin =>
              ({ enabled := some ((getEnabledOrigins s).contains origin),
                 origin := some (some origin), supported := some true }, s)
  else if mtype = "toggle" then
    match currentTab with
    | none => ({ success := some false }, s)
    | some tab =>
      match tab.url, tab.id with
      | some url, some tabId =>
        if url.isEmpty ∨ tabId = 0 then
          ({ success := some false }, s)
        else
          match extractOrigin parseURL url with
          | none => ({ success := some false }, s)
          | some origin =>
            if (getEnabledOrigins s).contains origin then
              ({ success := some true, enabled := some false },
                disableOrigin tabId origin s)
            else
              match enableOrigin userGrants tabId origin s with
              | (success, s2) =>
                  ({ success := some success, enabled := some success }, s2)
      | _, _ => ({ success := some false }, s)
  else if mtype = "getEnabledOrigins" then
    ({ origins := some (getEnabledOrigins s) }, s)
  else if mtype = "removeOrigin" then
    removeOriginCase morigin s
  else if mtype = "removeAllOrigins" then
    removeAllOriginsCase s
  else
    ({ error := some "Unknown message type" }, s)

/-- The `chrome.tabs.onUpdated` listener: on navigation-complete of a
supported URL whose origin is allow-listed, re-inject and set the badge
ON if the permission still exists, else reconcile by dropping the origin
from the allow-list. -/
def onUpdated (parseURL : String → Option URLObj) (tabId : Nat)
    (changeStatus : String) (tab : Tab) (s : BGState) : BGState :=
  if changeStatus = "complete" then
    match tab.url with
    | none => s
    | some url =>
      if url.isEmpty then s
      else
        match extractOrigin parseURL url with
        | none => s
        | some origin =>
          if (getEnabledOrigins s).contains origin then
            if (origin ++ "/*") ∈ s.permissions then
              updateBadge tabId true (injectContentScript tabId s)
            else
              saveEnabledOrigins
                ((getEnabledOrigins s).filter (fun o => o ≠ origin)) s
          else s
  else s

/-- The events whose `preventDefault` would disable right-click,
selection, copy, cut, paste. -/
def BLOCKED_EVENTS : List String :=
  ["contextmenu", "selectstart", "copy", "cut", "paste"]

/-- The drag-related events some sites additionally restrict. -/
def DRAG_EVENTS : List String :=
  ["dragstart", "drag"]

/-- All event types whose registration the payload blocks. -/
def ALL_BLOCKED : List String :=
  BLOCKED_EVENTS ++ DRAG_EVENTS

/-- A capture-phase listener the payload installs at the document:
its closure calls `stopImmediatePropagation` and never
`preventDefault`, recorded as two flags. -/
structure CaptureListener where
  eventName : String
  stopsImmediatePropagation : Bool
  preventsDefault : Bool
deriving DecidableEq

/-- A listener registered through (the possibly overridden)
`addEventListener`: receiver, event type, and an identifier standing
for the listener function. -/
structure PageListener where
  target : String
  eventType : String
  listenerId : Nat
deriving DecidableEq

/-- The page-context state the content script mutates: the injection
marker `window.__enableRightClickInjected`, whether
`EventTarget.prototype.addEventListener` has been replaced, the
listeners registered through it, the capture-phase listeners installed
at the document, the inline `on…` handlers present on elements
(element name × event name), the ids of appended style elements, the
number of live mutation observers, and whether `document.body` exists
yet. -/
structure PageState where
  injectedMarker : Bool
  addListenerOverridden : Bool
  pageListeners : List PageListener
  captureListeners : List CaptureListener
  inlineHandlers : List (String × String)
  styleElements : List String
  observerCount : Nat
  bodyPresent : Bool
deriving DecidableEq

/-- `removeInlineHandlers(element)`: null out every `on` + event
handler of the element for the blocked event types. -/
def removeInlineHandlers (element : String) (s : PageState) : PageState :=
  let keep : String × String → Bool := fun p =>
    if p.1 = element ∧ p.2 ∈ ALL_BLOCKED then false else true
  { s with inlineHandlers := s.inlineHandlers.filter keep }

/-- The original (saved) `EventTarget.prototype.addEventListener`: it
registers the listener on the receiver and returns `undefined`, here
the caller-chosen value `undef`. -/
def originalAddEventListener {V : Type} (undef : V) (target eventType : String)
    (listenerId : Nat) (s : PageState) : V × PageState :=
  (undef, { s with pageListeners :=
      s.pageListeners ++ [⟨target, eventType, listenerId⟩] })

/-- The overriding `EventTarget.prototype.addEventListener` wrapper:
blocked event types are silently skipped (plain `return`); everything
else is delegated to the saved original with the same receiver and
arguments, returning its result. The original is a parameter so that
delegation is stated literally. -/
def overriddenAddEventListener {V : Type} (undef : V)
    (original : String → String → Nat → PageState → V × PageState)
    (target eventType : String) (listenerId : Nat) (s : PageState) :
    V × PageState :=
  if eventType ∈ ALL_BLOCKED then
    (undef, s)
  else
    original target eventType listenerId s

/-- The body of the content-script IIFE, run when the injection marker
is not yet set: set the marker, override `addEventListener`, clear
inline handlers on `document`, `document.body` (when present) and
`document.documentElement`, install a capture-phase
`stopImmediatePropagation` listener (no `preventDefault`) for each of
`BLOCKED_EVENTS` via the saved original, append the
`enable-right-click-styles` stylesheet, and start the mutation
observer when `document.body` exists. -/
def payloadBody (s : PageState) : PageState :=
  let s1 := { s with injectedMarker := true }
  let s2 := { s1 with addListenerOverridden := true }
  let s3 := removeInlineHandlers "document" s2
  let s4 := if s3.bodyPresent then removeInlineHandlers "body" s3 else s3
  let s5 := removeInlineHandlers "documentElement" s4
  let newCaptures := BLOCKED_EVENTS.map (fun e => CaptureListener.mk e true false)
  let s6 := { s5 with captureListeners := s5.captureListeners ++ newCaptures }
  let s7 := { s6 with styleElements := s6.styleElements ++ ["enable-right-click-styles"] }
  if s7.bodyPresent then { s7 with observerCount := s7.observerCount + 1 }
  else s7

/-- The content-script payload: return immediately when the injection
marker is already set, otherwise run the body. -/
def payload (s : PageState) : PageState :=
  if s.injectedMarker then s else payloadBody s

/-- Whether a dispatched event of the given type is stopped by an
installed document-level capture listener before any page-installed
handler executes (capture dispatch runs root-to-target). -/
def blocksBeforePageHandlers (s : PageState) (eventName : String) : Bool :=
  s.captureListeners.any
    (fun cl => cl.eventName == eventName && cl.stopsImmediatePropagation)

/-- Whether some installed document-level capture listener cancels the
browser default action for the given event type. -/
def capturePreventsDefault (s : PageState) (eventName : String) : Bool :=
  s.captureListeners.any
    (fun cl => cl.eventName == eventName && cl.preventsDefault)

/-- A freshly navigated page context before any injection. -/
def freshPageState : PageState :=
  { injectedMarker := false
    addListenerOverridden := false
    pageListeners := []
    captureListeners := []
    inlineHandlers := []
    styleElements := []
    observerCount := 0
    bodyPresent := true }

/-- Modelled from the spec: an element in the stack under the cursor,
for the overlay/occlusion mitigation of the prototype-neutralization
payload, which is described by the specification as present in the
source but is not among the files under review (only the
listener-interception payload variant is). An element has an optional
resolvable background-image URL and a bounding box. -/
structure OverlayElement where
  bgImageURL : Option String
  box : Nat × Nat × Nat × Nat
deriving DecidableEq

/-- Modelled from the spec: a transparent rescue `<img>` created by the
overlay mitigation — its source URL, the bounding box of the source
element it is positioned over, its creation time, and whether the user
has touched it. -/
structure RescueImage where
  url : String
  box : Nat × Nat × Nat × Nat
  createdAt : Nat
  touched : Bool
deriving DecidableEq

/-- Modelled from the spec: the fixed auto-removal delay of a rescue
image ("several seconds"), in milliseconds. -/
def rescueTimeout : Nat := 5000

/-- Modelled from the spec: the overlay-rescue bookkeeping — the rescue
images currently in the document. -/
structure OverlayState where
  rescueImages : List RescueImage
deriving DecidableEq

/-- Modelled from the spec: on a right-click-down event the engine
inspects the stack of elements under the cursor, topmost to bottommost;
if an element with a background image is found anywhere in the stack, a
transparent rescue image referencing that background image is created —
or reused if one already exists for that URL — positioned over the
source element's bounding box. -/
def onRightClickDown (now : Nat) (stack : List OverlayElement)
    (st : OverlayState) : OverlayState :=
  match stack.find? (fun el => el.bgImageURL.isSome) with
  | none => st
  | some el =>
    match el.bgImageURL with
    | none => st
    | some url =>
      if st.rescueImages.any (fun r => r.url == url) then st
      else { st with rescueImages :=
          st.rescueImages ++ [RescueImage.mk url el.box now false] }

/-- Modelled from the spec: a rescue image is auto-removed after the
fixed delay if untouched; `expireRescueImages` is the state once every
due removal timer has fired. -/
def expireRescueImages (now : Nat) (st : OverlayState) : OverlayState :=
  let live : RescueImage → Bool := fun r =>
    r.touched || decide (now < r.createdAt + rescueTimeout)
  { st with rescueImages := st.rescueImages.filter live }

/-- An operation that mutates the persisted allow-list. -/
inductive AllowOp where
  | enable : Bool → Nat → String → AllowOp
  | disable : Nat → String → AllowOp
  | remove : Option String → AllowOp
  | removeAll : AllowOp

/-- Apply one allow-list-mutating operation of the background script. -/
def applyAllowOp (s : BGState) : AllowOp → BGState
  | .enable userGrants tabId origin => (enableOrigin userGrants tabId origin s).2
  | .disable tabId origin => disableOrigin tabId origin s
  | .remove morigin => (removeOriginCase morigin s).2
  | .removeAll => (removeAllOriginsCase s).2

/-- The empty background state: nothing allow-listed, no grants, all
badges off, no injections. -/
def s_empty : BGState := BGState.mk [] [] (fun _ => false) []

/-- A URL parser table resolving only `https://a.example/`. -/
def pu_a : String → Option URLObj := fun u =>
  if u == "https://a.example/" then some (URLObj.mk "https:" "https://a.example")
  else none

/-- A state where `https://a.example` is not allow-listed but its
permission pattern is already granted (an external grant) and the badge
of tab 1 is ON. -/
def s_pregranted : BGState :=
  BGState.mk [] ["https://a.example/*"] (fun t => t == 1) []

/-- A URL parser table resolving only `https://a.example/page`. -/
def pu_page : String → Option URLObj := fun u =>
  if u == "https://a.example/page" then
    some (URLObj.mk "https:" "https://a.example")
  else none

/-- A state where `https://a.example` is allow-listed but its
permission pattern has been revoked externally. -/
def s_revoked : BGState :=
  BGState.mk ["https://a.example"] [] (fun _ => false) []

/-- A URL parser table resolving only `chrome://settings`, with its
privileged scheme. -/
def pu_chrome : String → Option URLObj := fun u =>
  if u == "chrome://settings" then some (URLObj.mk "chrome:" "chrome://settings")
  else none

/-- A concrete cursor-position element stack: a plain element above one
element with a background image. -/
def demoStack : List OverlayElement :=
  [OverlayElement.mk none (0, 0, 10, 10),
   OverlayElement.mk (some "https://img.example/bg.png") (1, 2, 3, 4)]

lemma payloadBody_injectedMarker (s : PageState) :
    (payloadBody s).injectedMarker = true := by
  unfold payloadBody removeInlineHandlers
  by_cases hb : s.bodyPresent <;> simp [hb]

lemma payloadBody_captureListeners (s : PageState) :
    (payloadBody s).captureListeners =
      s.captureListeners ++ BLOCKED_EVENTS.map (fun e => CaptureListener.mk e true false) := by
  unfold payloadBody removeInlineHandlers
  by_cases hb : s.bodyPresent <;> simp [hb]

/-- C3: running the override payload a second time in the same page
context is observably identical to running it once — the first run sets
the injection marker, and a run that finds the marker set returns
without any mutation. -/
theorem payload_idempotent : ∀ s : PageState, payload (payload s) = payload s := by
  intro s
  by_cases h : s.injectedMarker
  · simp [payload, h]
  · simp [payload, h, payloadBody_injectedMarker]

/-- C6: the background message dispatcher has no `enable` or `disable`
case — both requests fall to the default branch and are answered with
the unknown-message error, with no state transition. -/
theorem handleMessage_enable_disable_unknown :
    ∀ (parseURL : String → Option URLObj) (userGrants : Bool)
      (currentTab : Option Tab) (morigin : Option String) (s : BGState),
      handleMessage parseURL userGrants currentTab "enable" morigin s
        = ({ error := some "Unknown message type" }, s)
      ∧ handleMessage parseURL userGrants currentTab "disable" morigin s
        = ({ error := some "Unknown message type" }, s) := by
  intro parseURL userGrants currentTab morigin s
  exact ⟨rfl, rfl⟩

/-- C10: the overriding `addEventListener` delegates every non-blocked
event type to the saved original with the same receiver and arguments,
returning its result, and for every blocked event type returns
`undefined` leaving the page state untouched (no listener registered). -/
theorem overriddenAddEventListener_behavior :
    ∀ (V : Type) (undef : V)
      (original : String → String → Nat → PageState → V × PageState)
      (target eventType : String) (listenerId : Nat) (s : PageState),
      (eventType ∉ ALL_BLOCKED →
        overriddenAddEventListener undef original target eventType listenerId s
          = original target eventType listenerId s)
      ∧ (eventType ∈ ALL_BLOCKED →
        overriddenAddEventListener undef original target eventType listenerId s
          = (undef, s)) := by
  intro V undef original target eventType listenerId s
  constructor <;> intro h <;> simp [overriddenAddEventListener, h]

/-- Witness for C10 at `click` (delegated) and `contextmenu` (blocked). -/
theorem overriddenAddEventListener_behavior_w :
    (overriddenAddEventListener () (originalAddEventListener ())
        "document" "click" 7 freshPageState
      = originalAddEventListener () "document" "click" 7 freshPageState)
    ∧ (overriddenAddEventListener () (originalAddEventListener ())
        "document" "contextmenu" 7 freshPageState
      = ((), freshPageState)) :=
  ⟨(overriddenAddEventListener_behavior Unit () (originalAddEventListener ())
      "document" "click" 7 freshPageState).1 (by decide),
   (overriddenAddEventListener_behavior Unit () (originalAddEventListener ())
      "document" "contextmenu" 7 freshPageState).2 (by decide)⟩

/-- Counterexample for C7: `dragstart` is in the blocked set the claim
enumerates, yet the payload installs no document-level capture listener
for it — capture registration covers only `BLOCKED_EVENTS`. -/
theorem payload_no_capture_for_dragstart :
    "dragstart" ∈ ALL_BLOCKED
    ∧ (payload freshPageState).captureListeners.filter
        (fun cl => cl.eventName == "dragstart") = []
    ∧ blocksBeforePageHandlers (payload freshPageState) "dragstart" = false := by
  exact ⟨by decide, by decide, by decide⟩

/-- C7 (amended): for every event type in `BLOCKED_EVENTS` (contextmenu,
selectstart, copy, cut, paste) the payload registers at the document a
capture-phase listener that calls `stopImmediatePropagation` and never
`preventDefault`, so the event is stopped before any page-installed
handler executes; `dragstart` and `drag` receive no capture listener. -/
theorem payload_capture_blocked_events :
    ∀ s : PageState, s.injectedMarker = false →
      (payload s).captureListeners =
        s.captureListeners ++ BLOCKED_EVENTS.map (fun e => CaptureListener.mk e true false)
      ∧ ∀ e ∈ BLOCKED_EVENTS, blocksBeforePageHandlers (payload s) e = true := by
  intro s h
  have hp : payload s = payloadBody s := by simp [payload, h]
  refine ⟨by rw [hp, payloadBody_captureListeners], ?_⟩
  intro e he
  rw [blocksBeforePageHandlers, hp, payloadBody_captureListeners]
  rw [List.any_append]
  have h2 : (BLOCKED_EVENTS.map (fun e => CaptureListener.mk e true false)).any
      (fun cl => cl.eventName == e && cl.stopsImmediatePropagation) = true := by
    rw [List.any_eq_true]
    exact ⟨CaptureListener.mk e true false, List.mem_map_of_mem _ he, by simp⟩
  rw [h2, Bool.or_true]

/-- Witness for C7 (amended) on a fresh page context at `contextmenu`. -/
theorem payload_capture_blocked_events_w :
    (payload freshPageState).captureListeners =
      freshPageState.captureListeners ++
        BLOCKED_EVENTS.map (fun e => CaptureListener.mk e true false)
    ∧ blocksBeforePageHandlers (payload freshPageState) "contextmenu" = true :=
  ⟨(payload_capture_blocked_events freshPageState rfl).1,
   (payload_capture_blocked_events freshPageState rfl).2 "contextmenu" (by decide)⟩

lemma requestPermission_denied_eq (userGrants : Bool) (pattern : String)
    (s : BGState) (h : (requestPermission userGrants pattern s).1 = false) :
    requestPermission userGrants pattern s = (false, s) := by
  unfold requestPermission at h ⊢
  split at h
  · simp at h
  · split at h
    · simp at h
    · rw [if_neg (by assumption), if_neg (by assumption)]

lemma filter_ne_of_not_mem {α : Type} [DecidableEq α] (l : List α) (a : α)
    (h : a ∉ l) : l.filter (fun x => x ≠ a) = l := by
  rw [List.filter_eq_self]
  intro b hb
  simp only [decide_eq_true_eq]
  exact fun hba => h (hba ▸ hb)

lemma filter_ne_append_singleton {α : Type} [DecidableEq α] (l : List α) (a : α)
    (h : a ∉ l) : (l ++ [a]).filter (fun x => x ≠ a) = l := by
  rw [List.filter_append, filter_ne_of_not_mem l a h]
  simp

/-- C1: when the permission request of the enable sequence resolves to
denied, `enableOrigin` returns `false` and the state — allow-list,
permissions, badge, injected tabs — is exactly what it was, and the
`toggle` message that triggered the enable branch answers
`success = false, enabled = false` with the state unchanged. -/
theorem enableOrigin_denied_no_mutation :
    ∀ (userGrants : Bool) (tabId : Nat) (origin : String) (s : BGState),
      (requestPermission userGrants (origin ++ "/*") s).1 = false →
      enableOrigin userGrants tabId origin s = (false, s)
      ∧ ∀ (parseURL : String → Option URLObj) (url : String),
          url.isEmpty = false →
          extractOrigin parseURL url = some origin →
          tabId ≠ 0 →
          origin ∉ getEnabledOrigins s →
          handleMessage parseURL userGrants
              (some (Tab.mk (some tabId) (some url))) "toggle" none s
            = ({ success := some false, enabled := some false }, s) := by
  intro userGrants tabId origin s hdenied
  have hreq := requestPermission_denied_eq userGrants (origin ++ "/*") s hdenied
  have henable : enableOrigin userGrants tabId origin s = (false, s) := by
    simp only [enableOrigin]
    rw [hreq]
    simp
  refine ⟨henable, ?_⟩
  intro parseURL url hurl hx htid hmem
  have hcontains : (getEnabledOrigins s).contains origin = false := by
    simpa using hmem
  simp [handleMessage, hurl, htid, hx, hcontains, hmem, henable]

/-- Witness for C1: denied grant on a fresh state. -/
theorem enableOrigin_denied_no_mutation_w :
    (requestPermission false ("https://a.example" ++ "/*") s_empty).1 = false
    ∧ enableOrigin false 1 "https://a.example" s_empty = (false, s_empty)
    ∧ handleMessage pu_a false (some (Tab.mk (some 1) (some "https://a.example/")))
        "toggle" none s_empty
      = ({ success := some false, enabled := some false }, s_empty) :=
  ⟨by decide,
   (enableOrigin_denied_no_mutation false 1 "https://a.example" s_empty (by decide)).1,
   (enableOrigin_denied_no_mutation false 1 "https://a.example" s_empty (by decide)).2
     pu_a "https://a.example/" (by decide) (by decide) (by decide) (by decide)⟩

/-- Counterexample for C2: for an origin outside the Allow-list whose
permission is externally pre-granted (and whose tab badge is ON),
enable then disable does not restore the pre-enable permission-grant
state or badge state — disable revokes the pre-existing grant and
forces the badge OFF. -/
theorem enable_disable_roundtrip_cex :
    "https://a.example" ∉ s_pregranted.enabledOrigins
    ∧ (enableOrigin true 1 "https://a.example" s_pregranted).1 = true
    ∧ (disableOrigin 1 "https://a.example"
        (enableOrigin true 1 "https://a.example" s_pregranted).2).permissions
      ≠ s_pregranted.permissions
    ∧ (disableOrigin 1 "https://a.example"
        (enableOrigin true 1 "https://a.example" s_pregranted).2).badge 1
      ≠ s_pregranted.badge 1 :=
  ⟨by decide, by decide, by decide, by decide⟩

/-- C2 (amended): for every origin not initially in the Allow-list,
whose permission pattern is not initially granted, and whose tab badge
is initially OFF, enabling (granted) then disabling restores the
Allow-list, the permission-grant state, and the badge of every tab to
exactly their pre-enable values. -/
theorem enable_disable_roundtrip :
    ∀ (tabId : Nat) (origin : String) (s : BGState),
      origin ∉ s.enabledOrigins →
      (origin ++ "/*") ∉ s.permissions →
      s.badge tabId = false →
      (enableOrigin true tabId origin s).1 = true
      ∧ (disableOrigin tabId origin
          (enableOrigin true tabId origin s).2).enabledOrigins = s.enabledOrigins
      ∧ (disableOrigin tabId origin
          (enableOrigin true tabId origin s).2).permissions = s.permissions
      ∧ ∀ t, (disableOrigin tabId origin
          (enableOrigin true tabId origin s).2).badge t = s.badge t := by
  intro tabId origin s hmem hperm hbadge
  have hreq : requestPermission true (origin ++ "/*") s
      = (true, { s with permissions := (origin ++ "/*") :: s.permissions }) := by
    unfold requestPermission
    rw [if_neg hperm, if_pos rfl]
  have henable : enableOrigin true tabId origin s
      = (true, updateBadge tabId true (injectContentScript tabId
          (saveEnabledOrigins (s.enabledOrigins ++ [origin])
            { s with permissions := (origin ++ "/*") :: s.permissions }))) := by
    simp only [enableOrigin]
    rw [hreq]
    simp [getEnabledOrigins, hmem]
  rw [henable]
  refine ⟨rfl, ?_, ?_, ?_⟩
  · show ((s.enabledOrigins ++ [origin]).filter (fun o => o ≠ origin)) = s.enabledOrigins
    exact filter_ne_append_singleton s.enabledOrigins origin hmem
  · show (((origin ++ "/*") :: s.permissions).filter
        (fun p => p ≠ (origin ++ "/*"))) = s.permissions
    rw [List.filter_cons]
    simp [filter_ne_of_not_mem s.permissions (origin ++ "/*") hperm]
    exact fun a ha hc => hperm (hc ▸ ha)
  · intro t
    show (if t = tabId then false else if t = tabId then true else s.badge t) = s.badge t
    by_cases ht : t = tabId
    · rw [if_pos ht, ht, hbadge]
    · rw [if_neg ht, if_neg ht]

/-- Witness for C2 (amended): round trip from the empty state. -/
theorem enable_disable_roundtrip_w :
    ("https://a.example" ∉ s_empty.enabledOrigins
      ∧ ("https://a.example" ++ "/*") ∉ s_empty.permissions
      ∧ s_empty.badge 1 = false)
    ∧ ((enableOrigin true 1 "https://a.example" s_empty).1 = true
      ∧ (disableOrigin 1 "https://a.example"
          (enableOrigin true 1 "https://a.example" s_empty).2).enabledOrigins
        = s_empty.enabledOrigins
      ∧ (disableOrigin 1 "https://a.example"
          (enableOrigin true 1 "https://a.example" s_empty).2).permissions
        = s_empty.permissions
      ∧ ∀ t, (disableOrigin 1 "https://a.example"
          (enableOrigin true 1 "https://a.example" s_empty).2).badge t
        = s_empty.badge t) :=
  ⟨⟨by decide, by decide, by decide⟩,
   enable_disable_roundtrip 1 "https://a.example" s_empty
     (by decide) (by decide) (by decide)⟩

/-- C4: on a navigation-complete observation of an allow-listed origin
whose permission grant has been revoked externally, the listener
removes the origin from the Allow-list and performs no injection, no
badge update, and no permission change. -/
theorem onUpdated_reconciles_revoked :
    ∀ (parseURL : String → Option URLObj) (tabId : Nat) (tid : Option Nat)
      (url origin : String) (s : BGState),
      url.isEmpty = false →
      extractOrigin parseURL url = some origin →
      origin ∈ s.enabledOrigins →
      (origin ++ "/*") ∉ s.permissions →
      onUpdated parseURL tabId "complete" (Tab.mk tid (some url)) s
        = saveEnabledOrigins (s.enabledOrigins.filter (fun o => o ≠ origin)) s
      ∧ origin ∉ (onUpdated parseURL tabId "complete"
          (Tab.mk tid (some url)) s).enabledOrigins
      ∧ (onUpdated parseURL tabId "complete" (Tab.mk tid (some url)) s).badge
        = s.badge
      ∧ (onUpdated parseURL tabId "complete" (Tab.mk tid (some url)) s).injected
        = s.injected
      ∧ (onUpdated parseURL tabId "complete" (Tab.mk tid (some url)) s).permissions
        = s.permissions := by
  intro parseURL tabId tid url origin s hurl hx hmem hperm
  have heq : onUpdated parseURL tabId "complete" (Tab.mk tid (some url)) s
      = saveEnabledOrigins (s.enabledOrigins.filter (fun o => o ≠ origin)) s := by
    simp [onUpdated, hurl, hx, hmem, hperm, getEnabledOrigins, saveEnabledOrigins]
  refine ⟨heq, ?_, ?_, ?_, ?_⟩
  · rw [heq]
    simp only [saveEnabledOrigins, List.mem_filter]
    rintro ⟨-, hcontra⟩
    simp at hcontra
  · rw [heq]
    rfl
  · rw [heq]
    rfl
  · rw [heq]
    rfl

/-- Witness for C4: reconciliation on a concrete revoked state. -/
theorem onUpdated_reconciles_revoked_w :
    onUpdated pu_page 1 "complete" (Tab.mk (some 1) (some "https://a.example/page")) s_revoked
      = saveEnabledOrigins
          (s_revoked.enabledOrigins.filter (fun o => o ≠ "https://a.example")) s_revoked
    ∧ "https://a.example" ∉ (onUpdated pu_page 1 "complete"
        (Tab.mk (some 1) (some "https://a.example/page")) s_revoked).enabledOrigins :=
  ⟨(onUpdated_reconciles_revoked pu_page 1 (some 1) "https://a.example/page"
      "https://a.example" s_revoked (by decide) (by decide) (by decide) (by decide)).1,
   (onUpdated_reconciles_revoked pu_page 1 (some 1) "https://a.example/page"
      "https://a.example" s_revoked (by decide) (by decide) (by decide) (by decide)).2.1⟩

/-- C5: a URL that fails to parse, or parses to a non-http(s) scheme,
makes `extractOrigin` return `null` (it never throws: failure is the
`none` result), and `getStatus` on a tab without a URL (or the current
tab absent, or a URL resolving as unsupported) answers
`enabled = false, origin = null, supported = false` with no state
change. -/
theorem extractOrigin_unsupported :
    ∀ (parseURL : String → Option URLObj),
      (∀ url : String,
        (∀ u : URLObj, parseURL url = some u →
          u.protocol ≠ "http:" ∧ u.protocol ≠ "https:") →
        extractOrigin parseURL url = none)
      ∧ (∀ (userGrants : Bool) (morigin : Option String) (s : BGState)
          (tab : Option Tab),
          (tab = none
            ∨ (∃ tid, tab = some (Tab.mk tid none))
            ∨ (∃ tid url, tab = some (Tab.mk tid (some url))
                ∧ (url.isEmpty = true ∨ extractOrigin parseURL url = none))) →
          handleMessage parseURL userGrants tab "getStatus" morigin s
            = ({ enabled := some false, origin := some none,
                 supported := some false }, s)) := by
  intro parseURL
  constructor
  · intro url h
    unfold extractOrigin
    cases hp : parseURL url with
    | none => rfl
    | some u =>
      have hu := h u hp
      simp [hu.1, hu.2]
  · rintro userGrants morigin s tab (rfl | ⟨tid, rfl⟩ | ⟨tid, url, rfl, hu⟩)
    · rfl
    · rfl
    · rcases hu with hempty | hnone
      · simp [handleMessage, hempty]
      · cases hbe : url.isEmpty <;> simp [handleMessage, hbe, hnone]

/-- Witness for C5: a `chrome://` URL and a getStatus call on it. -/
theorem extractOrigin_unsupported_w :
    extractOrigin pu_chrome "chrome://settings" = none
    ∧ handleMessage pu_chrome false
        (some (Tab.mk (some 1) (some "chrome://settings"))) "getStatus" none s_empty
      = ({ enabled := some false, origin := some none, supported := some false },
          s_empty) :=
  ⟨(extractOrigin_unsupported pu_chrome).1 "chrome://settings"
     (fun u hu => by
       have h2 : pu_chrome "chrome://settings"
           = some (URLObj.mk "chrome:" "chrome://settings") := rfl
       rw [h2] at hu
       injection hu with h3
       subst h3
       exact ⟨by decide, by decide⟩),
   (extractOrigin_unsupported pu_chrome).2 false none s_empty
     (some (Tab.mk (some 1) (some "chrome://settings")))
     (Or.inr (Or.inr ⟨some 1, "chrome://settings", rfl, Or.inr (by decide)⟩))⟩

lemma requestPermission_enabledOrigins (userGrants : Bool) (pattern : String)
    (s : BGState) :
    ((requestPermission userGrants pattern s).2).enabledOrigins
      = s.enabledOrigins := by
  unfold requestPermission
  split
  · rfl
  · split <;> rfl

lemma removeAllFold_enabledOrigins :
    ∀ (l : List String) (acc : BGState),
      (l.foldl (fun a o => removePermission (o ++ "/*") a) acc).enabledOrigins
        = acc.enabledOrigins := by
  intro l
  induction l with
  | nil => intro acc; rfl
  | cons x xs ih =>
    intro acc
    rw [List.foldl_cons, ih]
    rfl

lemma applyAllowOp_nodup (s : BGState) (op : AllowOp)
    (h : s.enabledOrigins.Nodup) : (applyAllowOp s op).enabledOrigins.Nodup := by
  cases op with
  | enable userGrants tabId origin =>
    show ((enableOrigin userGrants tabId origin s).2).enabledOrigins.Nodup
    simp only [enableOrigin]
    rcases hr : requestPermission userGrants (origin ++ "/*") s with ⟨granted, s1⟩
    have hs1 : s1.enabledOrigins = s.enabledOrigins := by
      have h2 := requestPermission_enabledOrigins userGrants (origin ++ "/*") s
      rw [hr] at h2
      exact h2
    cases granted with
    | false => simpa [hs1] using h
    | true =>
      show (if origin ∈ getEnabledOrigins s1 then s1
          else saveEnabledOrigins (getEnabledOrigins s1 ++ [origin]) s1).enabledOrigins.Nodup
      by_cases hmem : origin ∈ getEnabledOrigins s1
      · rw [if_pos hmem]
        rw [hs1]
        exact h
      · rw [if_neg hmem]
        show (s1.enabledOrigins ++ [origin]).Nodup
        rw [hs1, List.nodup_append]
        have hmem2 : origin ∉ s.enabledOrigins := by
          rw [← hs1]
          exact hmem
        refine ⟨h, List.nodup_singleton origin, ?_⟩
        intro a ha hb
        rw [List.mem_singleton] at hb
        exact hmem2 (hb ▸ ha)
  | disable tabId origin =>
    show ((getEnabledOrigins s).filter (fun o => o ≠ origin)).Nodup
    exact h.filter _
  | remove morigin =>
    cases morigin with
    | none => exact h
    | some mo =>
      show ((getEnabledOrigins s).filter (fun o => o ≠ mo)).Nodup
      exact h.filter _
  | removeAll =>
    exact List.nodup_nil

/-- C9: every allow-list mutation of the background script — enable's
add-if-absent, disable's filter, removeOrigin's filter,
removeAllOrigins' reset — keeps the stored list duplicate-free, and so
does any sequence of such operations from a duplicate-free list. -/
theorem allowlist_ops_preserve_nodup :
    ∀ (ops : List AllowOp) (s : BGState),
      s.enabledOrigins.Nodup →
      (ops.foldl applyAllowOp s).enabledOrigins.Nodup := by
  intro ops
  induction ops with
  | nil => intro s h; exact h
  | cons op rest ih =>
    intro s h
    rw [List.foldl_cons]
    exact ih _ (applyAllowOp_nodup s op h)

/-- Witness for C9: a concrete operation sequence from the empty state. -/
theorem allowlist_ops_preserve_nodup_w :
    s_empty.enabledOrigins.Nodup
    ∧ (([AllowOp.enable true 1 "https://a.example",
         AllowOp.enable true 1 "https://a.example",
         AllowOp.remove (some "https://b.example"),
         AllowOp.disable 1 "https://a.example"].foldl applyAllowOp
          s_empty).enabledOrigins).Nodup :=
  ⟨by decide,
   allowlist_ops_preserve_nodup
     [AllowOp.enable true 1 "https://a.example",
      AllowOp.enable true 1 "https://a.example",
      AllowOp.remove (some "https://b.example"),
      AllowOp.disable 1 "https://a.example"] s_empty (by decide)⟩

lemma find_eq_of_filter_singleton {α : Type} (p : α → Bool) (l : List α)
    (a : α) (h : l.filter p = [a]) : l.find? p = some a := by
  induction l with
  | nil => simp at h
  | cons x xs ih =>
    by_cases hx : p x
    · rw [List.filter_cons_of_pos hx] at h
      rw [List.find?_cons_of_pos xs hx]
      injection h with h1 h2
      rw [h1]
    · rw [List.filter_cons_of_neg hx] at h
      rw [List.find?_cons_of_neg xs hx]
      exact ih h

/-- C8: on a right-click-down whose element stack contains exactly one
element with a resolvable background-image URL, the overlay engine
creates exactly one rescue image for that URL, positioned at that
element's bounding box; a repeated right-click reuses it (deduplicated
per URL, no second image), and once the fixed timeout elapses the
untouched image is removed. -/
theorem overlay_rescue_single_image :
    ∀ (now : Nat) (stack : List OverlayElement) (el : OverlayElement)
      (url : String),
      stack.filter (fun e => e.bgImageURL.isSome) = [el] →
      el.bgImageURL = some url →
      (onRightClickDown now stack (OverlayState.mk [])).rescueImages
        = [RescueImage.mk url el.box now false]
      ∧ onRightClickDown now stack
          (onRightClickDown now stack (OverlayState.mk []))
        = onRightClickDown now stack (OverlayState.mk [])
      ∧ (expireRescueImages (now + rescueTimeout)
          (onRightClickDown now stack (OverlayState.mk []))).rescueImages
        = [] := by
  intro now stack el url hstack hurl
  have hfind : stack.find? (fun e => e.bgImageURL.isSome) = some el :=
    find_eq_of_filter_singleton _ _ _ hstack
  have h1 : onRightClickDown now stack (OverlayState.mk [])
      = OverlayState.mk [RescueImage.mk url el.box now false] := by
    unfold onRightClickDown
    rw [hfind]
    dsimp only
    rw [hurl]
    simp
  refine ⟨by rw [h1], ?_, ?_⟩
  · rw [h1]
    conv in onRightClickDown now stack _ => rw [onRightClickDown]
    rw [hfind]
    dsimp only
    rw [hurl]
    simp
  · rw [h1]
    unfold expireRescueImages
    simp

/-- Witness for C8 on the concrete stack. -/
theorem overlay_rescue_single_image_w :
    (onRightClickDown 0 demoStack (OverlayState.mk [])).rescueImages
      = [RescueImage.mk "https://img.example/bg.png" (1, 2, 3, 4) 0 false]
    ∧ onRightClickDown 0 demoStack
        (onRightClickDown 0 demoStack (OverlayState.mk []))
      = onRightClickDown 0 demoStack (OverlayState.mk [])
    ∧ (expireRescueImages (0 + rescueTimeout)
        (onRightClickDown 0 demoStack (OverlayState.mk []))).rescueImages
      = [] :=
  overlay_rescue_single_image 0 demoStack
    (OverlayElement.mk (some "https://img.example/bg.png") (1, 2, 3, 4))
    "https://img.example/bg.png" (by decide) (by decide)
